import Mathlib

/-!
# Verification of the DDE `PipelineGraph` graph-model builder and layout engine

Shallow embedding of the graph construction code of `PipelineGraph`
(the full-featured version documented in `README.md`, superset of
`components/PipelineGraph.tsx`): layer classification, three-column
placement, saved-position override, edge derivation, edge path geometry,
drag-frame semantics, the position cache, and the zoom scale bounds.

Numbers are modelled by `ℚ` (idealized real arithmetic; IEEE-754 rounding
is out of scope for the structural properties proved here).  JavaScript
object references held by D3 data joins are modelled by id-keyed lookup
into the current node list, which agrees with reference semantics when
step ids are unique.  The Euclidean distance `dr = √(dx²+dy²)` used by the
edge path formula is irrational in general, so path constructors take `dr`
as an argument and theorems constrain it by `0 ≤ dr ∧ dr² = dx² + dy²`.
-/

/-- A pipeline step as consumed by `PipelineGraph` (`types.ts`
`PipelineStep`); the fields `description`, `status` and `type` are never
read by the graph-building code and are omitted. -/
structure Step where
  id : String
  name : String
  dependencies : List String
deriving DecidableEq, Repr

/-- A 2-D point (an `{x, y}` record). -/
structure Point where
  x : ℚ
  y : ℚ
deriving DecidableEq, Repr

/-- A graph node: the step spread together with its assigned `layer` and
its mutable position `x`, `y` (`{ ...s, layer }`, positions assigned by
the placement pass). -/
structure Node where
  id : String
  name : String
  dependencies : List String
  layer : ℕ
  x : ℚ
  y : ℚ
deriving DecidableEq, Repr

/-- JavaScript `String.prototype.toLowerCase`, as the character list of the
lowered string (agrees with `toLowerCase` on the ASCII range). -/
def lowerStr (s : String) : List Char :=
  s.toList.map Char.toLower

/-- JavaScript `String.prototype.includes`: `needle` occurs contiguously
in `hay`. -/
def strContains (hay needle : List Char) : Bool :=
  (List.range (hay.length + 1)).any
    (fun k => decide ((hay.drop k).take needle.length = needle))

/-- Layer classification from the node-building pass:
`let layer = 1; const name = s.name.toLowerCase();
 if (name.includes('fetch') || name.includes('read') || name.includes('source')) layer = 0;
 else if (name.includes('store') || name.includes('load') || name.includes('sink') || name.includes('postgre')) layer = 2;` -/
def assignLayer (stepName : String) : ℕ :=
  let name := lowerStr stepName
  if strContains name "fetch".toList || strContains name "read".toList
     || strContains name "source".toList then 0
  else if strContains name "store".toList || strContains name "load".toList
       || strContains name "sink".toList || strContains name "postgre".toList then 2
  else 1

/-- The node-building pass `steps.map(s => ({ ...s, layer }))`; positions
are assigned later (undefined at this stage, modelled as `0`). -/
def buildNodes (steps : List Step) : List Node :=
  steps.map (fun s => { id := s.id, name := s.name, dependencies := s.dependencies,
                        layer := assignLayer s.name, x := 0, y := 0 })

/-- Source: `nodes.filter(n => n.layer === l)` — the layer bucket. -/
def bucket (ns : List Node) (l : ℕ) : List Node :=
  ns.filter (fun n => n.layer = l)

/-- Source: `const width = container?.clientWidth || 800` — the container width
with the JavaScript falsy fallback (`none` models a detached parent,
`some 0` a zero-width container). -/
def resolveWidth (clientWidth : Option ℕ) : ℕ :=
  match clientWidth with
  | none => 800
  | some w => if w = 0 then 800 else w

/-- Source: `const baseHeight = 320`. -/
def baseHeight : ℚ := 320

/-- Source: `const perNodeHeight = 70`. -/
def perNodeHeight : ℚ := 70

/-- Source: `const paddingX = 100`. -/
def paddingX : ℚ := 100

/-- Source: `const paddingY = 50`. -/
def paddingY : ℚ := 50

/-- Source: `const maxLayerSize = Math.max(...layers.map(layer => layer.length), 1)`. -/
def maxLayerSize (ns : List Node) : ℕ :=
  max (max (bucket ns 0).length (max (bucket ns 1).length (bucket ns 2).length)) 1

/-- Source: `const height = Math.max(baseHeight, maxLayerSize * perNodeHeight)`. -/
def heightOf (ns : List Node) : ℚ :=
  max baseHeight ((maxLayerSize ns : ℚ) * perNodeHeight)

/-- The default-placement pass
`nodes.forEach(n => { const layerNodes = layers[n.layer];
 const nodeIdx = layerNodes.indexOf(n);
 const layerX = paddingX + n.layer * ((width - paddingX * 2) / 2);
 const layerY = paddingY + ((height - paddingY * 2) / (layerNodes.length + 1)) * (nodeIdx + 1);
 n.x = layerX; n.y = layerY; })`.
`indexOf` compares by object reference; value equality on the pre-placement
list agrees with it whenever the pre-placement nodes are pairwise distinct. -/
def placeNodes (ns : List Node) (width : ℚ) : List Node :=
  ns.map (fun n =>
    let layerNodes := bucket ns n.layer
    let nodeIdx := layerNodes.indexOf n
    { n with x := paddingX + (n.layer : ℚ) * ((width - paddingX * 2) / 2),
             y := paddingY + ((heightOf ns - paddingY * 2) / (layerNodes.length + 1))
                    * (nodeIdx + 1) })

/-- A saved Position Snapshot: `Record<string, {x, y}>`. -/
def Snapshot : Type := String → Option Point

/-- The saved-position override
`if (savedPositions) { nodes.forEach(n => { const saved = savedPositions[n.id];
 if (saved) { n.x = saved.x; n.y = saved.y; } }); }`
(the snapshot is supplied here, i.e. the `if (savedPositions)` guard is taken). -/
def applySaved (ns : List Node) (saved : Snapshot) : List Node :=
  ns.map (fun n =>
    match saved n.id with
    | some p => { n with x := p.x, y := p.y }
    | none => n)

/-- The full node pipeline for a supplied snapshot: build, place, override. -/
def layoutNodes (steps : List Step) (saved : Snapshot) (clientWidth : Option ℕ) : List Node :=
  applySaved (placeNodes (buildNodes steps) (resolveWidth clientWidth : ℚ)) saved

/-- Source: `positionsRef.current = nodes.reduce((acc, n) => { acc[n.id] = {x: n.x, y: n.y}; return acc; }, {})`
— the live position cache seeded from the laid-out nodes (later entries
overwrite earlier ones, as record assignment does). -/
def seedCache (ns : List Node) : Snapshot :=
  ns.foldl (fun acc n => fun i => if i = n.id then some ⟨n.x, n.y⟩ else acc i)
    (fun _ => none)

/-- Source: `nodes.find(n => n.id === i)`. -/
def findNode (ns : List Node) (i : String) : Option Node :=
  ns.find? (fun n => n.id = i)

/-- The edge-derivation pass
`const links = []; steps.forEach(step => { step.dependencies.forEach(depId => {
 const source = nodes.find(n => n.id === depId);
 const target = nodes.find(n => n.id === step.id);
 if (source && target) links.push({ source, target }); }); });`
An element is the pushed `{ source, target }` pair of node snapshots. -/
def deriveLinks (steps : List Step) (ns : List Node) : List (Node × Node) :=
  steps.flatMap (fun step =>
    step.dependencies.filterMap (fun depId =>
      match findNode ns depId, findNode ns step.id with
      | some s, some t => some (s, t)
      | _, _ => none))

/-- Cubic path data `M p0 C c1 c2 p1` (the numeric content of the SVG
path string). -/
structure LinkPath where
  p0 : Point
  c1 : Point
  c2 : Point
  p1 : Point
deriving DecidableEq, Repr

/-- Squared Euclidean distance `dr²`, i.e. `(t.x - s.x)² + (t.y - s.y)²`. -/
def dist2 (s t : Point) : ℚ :=
  (t.x - s.x) ^ 2 + (t.y - s.y) ^ 2

/-- The initial edge path (`linkSelection ... .attr('d', d => ...)`):
`const dx = d.target.x - d.source.x; const dy = d.target.y - d.source.y;
 const dr = Math.sqrt(dx*dx + dy*dy);
 return M(sx,sy) C (sx + dr/2, sy) (tx - dr/2, ty) (tx, ty)`.
`dr` is taken as an argument (theorems constrain it by
`0 ≤ dr ∧ dr² = dist2 s t`, the defining property of `Math.sqrt`). -/
def initialPath (s t : Point) (dr : ℚ) : LinkPath :=
  ⟨s, ⟨s.x + dr / 2, s.y⟩, ⟨t.x - dr / 2, t.y⟩, t⟩

/-- The drag-time edge path recomputation (`updateLinks`), verbatim the same
formula as the initial draw. -/
def dragPath (s t : Point) (dr : ℚ) : LinkPath :=
  ⟨s, ⟨s.x + dr / 2, s.y⟩, ⟨t.x - dr / 2, t.y⟩, t⟩

/-- The edge path the spec describes: control points offset from each
endpoint by `dr/2` along the VERTICAL coordinate only.  Stated from the
spec words, to be compared against `initialPath` (which offsets along the
horizontal coordinate). -/
def specVerticalPath (s t : Point) (dr : ℚ) : LinkPath :=
  ⟨s, ⟨s.x, s.y + dr / 2⟩, ⟨t.x, t.y - dr / 2⟩, t⟩

/-- A link as D3 keeps it during drag: the `source`/`target` node object
references, modelled as the ids to look up in the live node list. -/
structure LinkRef where
  src : String
  tgt : String
deriving DecidableEq, Repr

/-- The `updateLinks` recomputation applied to one link of the live node list: recompute the
path from the current node positions (reference semantics: the path reads
whatever `x`/`y` the nodes hold now). -/
def pathAt (ns : List Node) (l : LinkRef) (dr : ℚ) : Option LinkPath :=
  match findNode ns l.src, findNode ns l.tgt with
  | some s, some t => some (dragPath ⟨s.x, s.y⟩ ⟨t.x, t.y⟩ dr)
  | _, _ => none

/-- One `'drag'` event frame on the node list:
`d.x = event.x; d.y = event.y;` — the dragged node object takes the pointer
position (id-keyed update, which is reference semantics for unique ids). -/
def dragMove (ns : List Node) (i : String) (p : Point) : List Node :=
  ns.map (fun n => if n.id = i then { n with x := p.x, y := p.y } else n)

/-- The same frame's cache write:
`positionsRef.current[d.id] = { x: d.x, y: d.y }`. -/
def cacheWrite (cache : Snapshot) (i : String) (p : Point) : Snapshot :=
  fun j => if j = i then some p else cache j

/-- Source: `d3.zoom().scaleExtent([0.7, 1.6])` — the configured zoom bounds. -/
def scaleExtentLo : ℚ := 0.7

/-- Upper bound of `scaleExtent([0.7, 1.6])`. -/
def scaleExtentHi : ℚ := 1.6

/-- Modelled from the spec: d3's `scaleExtent` constraint (library
behavior, not repository code) clamps every requested zoom scale `k` to
the configured interval, `k ↦ max(lo, min(hi, k))`; the repository only
supplies the bounds `[0.7, 1.6]`. -/
def clampScale (k : ℚ) : ℚ :=
  max scaleExtentLo (min scaleExtentHi k)

/-- The ingestion-keyword test of the first `if` branch. -/
def hasIngestKw (low : List Char) : Bool :=
  strContains low "fetch".toList || strContains low "read".toList
    || strContains low "source".toList

/-- The persistence-keyword test of the `else if` branch. -/
def hasPersistKw (low : List Char) : Bool :=
  strContains low "store".toList || strContains low "load".toList
    || strContains low "sink".toList || strContains low "postgre".toList

/-- Demo input used by witnesses: one step whose name holds both an
ingestion and a persistence keyword. -/
def demoStepFS : Step := { id := "a", name := "Fetch and Store", dependencies := [] }

/-- Demo snapshot used by witnesses: position for id `"A"` only. -/
def snapA : Snapshot := fun i => if i = "A" then some ⟨10, 20⟩ else none

/-- Demo empty snapshot used by witnesses. -/
def emptySnap : Snapshot := fun _ => none

/-- Demo step used by witnesses: a step that depends on itself. -/
def selfStep : Step := { id := "A", name := "Clean", dependencies := ["A"] }

/-- Demo node used by the drag witness. -/
def demoNodeA : Node := { id := "A", name := "Read", dependencies := [], layer := 0, x := 100, y := 160 }

/-- Demo node used by the drag witness. -/
def demoNodeB : Node := { id := "B", name := "Store", dependencies := ["A"], layer := 2, x := 700, y := 160 }

lemma assignLayer_eq (s : String) :
    assignLayer s =
      if hasIngestKw (lowerStr s) then 0
      else if hasPersistKw (lowerStr s) then 2 else 1 := rfl

lemma buildNodes_mem {steps : List Step} {n : Node} (hn : n ∈ buildNodes steps) :
    n.layer = assignLayer n.name := by
  simp only [buildNodes, List.mem_map] at hn
  obtain ⟨s, -, rfl⟩ := hn
  rfl

lemma layoutNodes_map_id (steps : List Step) (saved : Snapshot) (cw : Option ℕ) :
    (layoutNodes steps saved cw).map Node.id = steps.map Step.id := by
  simp only [layoutNodes, applySaved, placeNodes, buildNodes, List.map_map]
  refine List.map_congr_left fun s _ => ?_
  simp only [Function.comp]
  split <;> rfl

/-- C1.  The Graph Model Builder assigns each node's layer purely from the
lower-cased display name: ingestion keywords (`fetch`/`read`/`source`)
give layer 0, otherwise persistence keywords
(`store`/`load`/`sink`/`postgre`) give layer 2, otherwise layer 1;
ingestion keywords take precedence when both kinds occur, and the result
is invariant under casing of the name. -/
theorem c1_layer_classification (steps : List Step) (n : Node)
    (hn : n ∈ buildNodes steps) :
    (hasIngestKw (lowerStr n.name) = true → n.layer = 0)
    ∧ (hasIngestKw (lowerStr n.name) = false →
        hasPersistKw (lowerStr n.name) = true → n.layer = 2)
    ∧ (hasIngestKw (lowerStr n.name) = false →
        hasPersistKw (lowerStr n.name) = false → n.layer = 1)
    ∧ (hasIngestKw (lowerStr n.name) = true ∧ hasPersistKw (lowerStr n.name) = true →
        n.layer = 0)
    ∧ (∀ m : String, lowerStr m = lowerStr n.name → assignLayer m = n.layer) := by
  have hl := buildNodes_mem hn
  rw [assignLayer_eq] at hl
  refine ⟨fun h1 => ?_, fun h1 h2 => ?_, fun h1 h2 => ?_, fun ⟨h1, _⟩ => ?_,
    fun m hm => ?_⟩
  · rw [hl, if_pos h1]
  · rw [hl, if_neg (by simp [h1]), if_pos h2]
  · rw [hl, if_neg (by simp [h1]), if_neg (by simp [h2])]
  · rw [hl, if_pos h1]
  · rw [hl, assignLayer_eq, hm]

/-- Witness for C1: the node built from `"Fetch and Store"` — a name with
both keyword kinds — gets layer 0 (ingestion precedence), at a concrete
input. -/
theorem c1_layer_classification_witness :
    ({ id := "a", name := "Fetch and Store", dependencies := [], layer := 0,
       x := 0, y := 0 } : Node) ∈ buildNodes [demoStepFS] ∧
    ({ id := "a", name := "Fetch and Store", dependencies := [], layer := 0,
       x := 0, y := 0 } : Node).layer = 0 :=
  ⟨by decide,
   (c1_layer_classification [demoStepFS] _ (by decide)).2.2.2.1 ⟨by decide, by decide⟩⟩

/-- C3.  Node-by-node, a saved snapshot entry overrides the computed
default position unconditionally (the final `{x, y}` is exactly the
snapshot's, everything else kept), and a node whose id is absent from the
snapshot keeps its computed default position. -/
theorem c3_saved_positions_override (steps : List Step) (saved : Snapshot)
    (cw : Option ℕ) :
    List.Forall₂
      (fun dflt finl =>
        (∀ p : Point, saved dflt.id = some p → finl = { dflt with x := p.x, y := p.y })
        ∧ (saved dflt.id = none → finl = dflt))
      (placeNodes (buildNodes steps) (resolveWidth cw : ℚ))
      (layoutNodes steps saved cw) := by
  unfold layoutNodes applySaved
  rw [List.forall₂_map_right_iff, List.forall₂_same]
  intro n _
  refine ⟨fun p hp => ?_, fun hp => ?_⟩
  · simp only [hp]
  · simp only [hp]

/-- Witness for C3: with snapshot `{A ↦ (10,20)}` the single node `"A"`
lands exactly at `(10,20)` regardless of its computed default. -/
theorem c3_saved_positions_override_witness :
    (layoutNodes [{ id := "A", name := "Clean Data", dependencies := [] }] snapA
        none).map (fun n => (n.x, n.y)) = [(10, 20)] := by
  have h := c3_saved_positions_override
    [{ id := "A", name := "Clean Data", dependencies := [] }] snapA none
  simp only [layoutNodes, applySaved, placeNodes, buildNodes, List.map_cons,
    List.map_nil, List.forall₂_cons] at h ⊢
  rw [h.1.1 ⟨10, 20⟩ rfl]

/-- C4.  Default placement: each node's `x` is the fixed horizontal margin
plus its layer times half the margin-reduced width (three columns); its `y`
sits at the `(index+1)`-th of `(bucket-size+1)` equal divisions of the
margin-reduced height, strictly inside the vertical margins (never flush
against the top or bottom edge); and the canvas height is the maximum of
the fixed base height and the largest bucket size times the fixed per-node
height. -/
theorem c4_default_placement (steps : List Step) (cw : Option ℕ) :
    heightOf (buildNodes steps)
      = max baseHeight
          ((max (bucket (buildNodes steps) 0).length
              (max (bucket (buildNodes steps) 1).length
                (bucket (buildNodes steps) 2).length) : ℚ) * perNodeHeight)
    ∧ List.Forall₂
        (fun n pl =>
          pl.id = n.id ∧ pl.layer = n.layer
          ∧ pl.x = paddingX
              + (n.layer : ℚ) * (((resolveWidth cw : ℕ) - paddingX * 2) / 2)
          ∧ pl.y = paddingY
              + ((heightOf (buildNodes steps) - paddingY * 2)
                  / ((bucket (buildNodes steps) n.layer).length + 1))
                * (((bucket (buildNodes steps) n.layer).indexOf n : ℚ) + 1)
          ∧ paddingY < pl.y ∧ pl.y < heightOf (buildNodes steps) - paddingY)
        (buildNodes steps)
        (placeNodes (buildNodes steps) (resolveWidth cw : ℚ)) := by
  have hp : paddingY = 50 := rfl
  constructor
  · show max baseHeight ((maxLayerSize (buildNodes steps) : ℚ) * perNodeHeight) = _
    rw [maxLayerSize, ← Nat.cast_max, ← Nat.cast_max]
    rcases Nat.eq_zero_or_pos
        (max (bucket (buildNodes steps) 0).length
          (max (bucket (buildNodes steps) 1).length
            (bucket (buildNodes steps) 2).length)) with h0 | h1
    · rw [h0]
      norm_num [baseHeight, perNodeHeight]
    · rw [Nat.max_eq_left h1]
  · rw [placeNodes, List.forall₂_map_right_iff, List.forall₂_same]
    intro n hn
    have hmem : n ∈ bucket (buildNodes steps) n.layer := by
      simp [bucket, List.mem_filter, hn]
    have hidx : (bucket (buildNodes steps) n.layer).indexOf n
        < (bucket (buildNodes steps) n.layer).length :=
      List.indexOf_lt_length.2 hmem
    have hH : (320 : ℚ) ≤ heightOf (buildNodes steps) := le_max_left _ _
    have hm : (0 : ℚ) < heightOf (buildNodes steps) - paddingY * 2 := by
      rw [hp]; linarith
    refine ⟨rfl, rfl, rfl, rfl, ?_, ?_⟩
    · have hpos : (0 : ℚ) < (heightOf (buildNodes steps) - paddingY * 2)
          / ((bucket (buildNodes steps) n.layer).length + 1)
          * (((bucket (buildNodes steps) n.layer).indexOf n : ℚ) + 1) := by
        apply mul_pos
        · exact div_pos hm (by positivity)
        · positivity
      linarith [hpos]
    · have hlt : (((bucket (buildNodes steps) n.layer).indexOf n : ℚ) + 1)
          < (((bucket (buildNodes steps) n.layer).length : ℚ) + 1) := by
        exact_mod_cast Nat.succ_lt_succ hidx
      have hfrac : (heightOf (buildNodes steps) - paddingY * 2)
            / (((bucket (buildNodes steps) n.layer).length : ℚ) + 1)
            * (((bucket (buildNodes steps) n.layer).indexOf n : ℚ) + 1)
          < heightOf (buildNodes steps) - paddingY * 2 := by
        rw [div_mul_eq_mul_div, div_lt_iff₀ (by positivity)]
        exact mul_lt_mul_of_pos_left hlt hm
      linarith [hfrac]

lemma mem_deriveLinks {steps : List Step} {ns : List Node} {p : Node × Node} :
    p ∈ deriveLinks steps ns ↔
      ∃ st ∈ steps, ∃ d ∈ st.dependencies,
        findNode ns d = some p.1 ∧ findNode ns st.id = some p.2 := by
  simp only [deriveLinks, List.mem_flatMap, List.mem_filterMap]
  constructor
  · rintro ⟨st, hst, d, hd, hm⟩
    refine ⟨st, hst, d, hd, ?_⟩
    revert hm
    cases h1 : findNode ns d <;> cases h2 : findNode ns st.id <;> simp <;>
      rintro rfl <;> simp
  · rintro ⟨st, hst, d, hd, h1, h2⟩
    exact ⟨st, hst, d, hd, by rw [h1, h2]⟩

lemma length_deriveLinks (steps : List Step) (ns : List Node) :
    (deriveLinks steps ns).length =
      (steps.map (fun st => st.dependencies.countP
        (fun d => (findNode ns d).isSome && (findNode ns st.id).isSome))).sum := by
  rw [deriveLinks, List.length_flatMap]
  refine congrArg List.sum (List.map_congr_left fun st _ => ?_)
  simp only [Function.comp_apply]
  rw [List.length_filterMap_eq_countP]
  refine List.countP_congr fun d _ => ?_
  cases findNode ns d <;> cases findNode ns st.id <;> rfl

/-- C5.  Edge derivation yields exactly one edge per (step, dependency-id)
pair in which both the dependency id and the step's own id resolve in the
node set (the length equation); an edge exists precisely for such resolvable
pairs (the membership equivalence); and a dependency id absent from the
step list resolves to no node of the laid-out node set, hence yields no
edge — silently, the derivation being a total function. -/
theorem c5_links_derivation (steps : List Step) (ns : List Node) :
    (deriveLinks steps ns).length =
      (steps.map (fun st => st.dependencies.countP
        (fun d => (findNode ns d).isSome && (findNode ns st.id).isSome))).sum
    ∧ (∀ p : Node × Node, p ∈ deriveLinks steps ns ↔
        ∃ st ∈ steps, ∃ d ∈ st.dependencies,
          findNode ns d = some p.1 ∧ findNode ns st.id = some p.2)
    ∧ (∀ saved : Snapshot, ∀ cw : Option ℕ, ∀ d : String,
        d ∉ steps.map Step.id → findNode (layoutNodes steps saved cw) d = none) := by
  refine ⟨length_deriveLinks steps ns, fun p => mem_deriveLinks, fun saved cw d hd => ?_⟩
  rw [findNode, List.find?_eq_none]
  intro n hn
  have : n.id ∈ (layoutNodes steps saved cw).map Node.id := List.mem_map_of_mem _ hn
  rw [layoutNodes_map_id steps saved cw] at this
  simp only [decide_eq_true_eq]
  rintro rfl
  exact hd this

/-- Witness for C5: a step depending on a missing id `"ghost"` and on the
real id `"a"` yields exactly one edge, with no error. -/
theorem c5_links_derivation_witness :
    (deriveLinks
      [{ id := "a", name := "Fetch", dependencies := [] },
       { id := "b", name := "Store", dependencies := ["ghost", "a"] }]
      (layoutNodes
        [{ id := "a", name := "Fetch", dependencies := [] },
         { id := "b", name := "Store", dependencies := ["ghost", "a"] }]
        emptySnap none)).length = 1 :=
  (c5_links_derivation _ _).1.trans (by decide)

/-- C10.  No acyclicity or self-reference check: every resolvable
(step, dependency) pair yields an edge, even inside a cycle; when a step
lists its own id among its dependencies, the resulting edge's source node
and destination node are the same node. -/
theorem c10_cycles_not_checked (steps : List Step) (ns : List Node)
    (st : Step) (hst : st ∈ steps) (d : String) (hd : d ∈ st.dependencies)
    (s t : Node) (hs : findNode ns d = some s) (ht : findNode ns st.id = some t) :
    (s, t) ∈ deriveLinks steps ns ∧ (d = st.id → s = t) := by
  refine ⟨mem_deriveLinks.mpr ⟨st, hst, d, hd, hs, ht⟩, fun hdst => ?_⟩
  rw [hdst, ht] at hs
  exact (Option.some_inj.mp hs).symm

/-- Witness for C10: the self-dependency of `selfStep` yields an edge whose
source and destination are the same node. -/
theorem c10_cycles_not_checked_witness :
    ∃ n : Node, findNode (layoutNodes [selfStep] emptySnap none) "A" = some n
      ∧ (n, n) ∈ deriveLinks [selfStep] (layoutNodes [selfStep] emptySnap none) :=
  ⟨_, rfl,
   (c10_cycles_not_checked [selfStep] (layoutNodes [selfStep] emptySnap none)
      selfStep (by decide) "A" (by decide) _ _ rfl rfl).1⟩

/-- C8.  Layout math never divides by zero and every node gets a defined
position: a zero or absent container width falls back to the fixed default
`800` (and the resolved width is always positive), the vertical divisor
`bucket-size + 1` is always positive, and the laid-out node list carries a
position for every step. -/
theorem c8_positions_always_defined :
    (∀ cw : Option ℕ, 0 < resolveWidth cw)
    ∧ resolveWidth none = 800 ∧ resolveWidth (some 0) = 800
    ∧ (∀ steps : List Step, ∀ n ∈ buildNodes steps,
        0 < (bucket (buildNodes steps) n.layer).length + 1)
    ∧ (∀ steps : List Step, ∀ saved : Snapshot, ∀ cw : Option ℕ,
        (layoutNodes steps saved cw).length = steps.length) := by
  refine ⟨fun cw => ?_, rfl, rfl, fun steps n _ => Nat.succ_pos _,
    fun steps saved cw => ?_⟩
  · cases cw with
    | none => decide
    | some w =>
      by_cases hw : w = 0
      · simp [resolveWidth, hw]
      · simpa [resolveWidth, hw] using Nat.pos_of_ne_zero hw
  · simp [layoutNodes, applySaved, placeNodes, buildNodes]

/-- Witness for C8: the divisor bound applied at a concrete node of a
concrete step list, and the width fallback at a zero-width container. -/
theorem c8_positions_always_defined_witness :
    0 < resolveWidth (some 0)
    ∧ (layoutNodes [{ id := "A", name := "Clean", dependencies := [] }]
        emptySnap (some 0)).length = 1 :=
  ⟨c8_positions_always_defined.1 (some 0),
   c8_positions_always_defined.2.2.2.2 _ emptySnap (some 0)⟩

/-- C6.  The id list of the derived (and fully laid-out) nodes equals the
step id list exactly — one node per step carrying its id, no omissions, no
orphans — and unique step ids give unique node ids.  Nodes are a pure
function of the current step list, i.e. recomputed from scratch on each
rebuild. -/
theorem c6_node_ids (steps : List Step) (saved : Snapshot) (cw : Option ℕ) :
    (layoutNodes steps saved cw).map Node.id = steps.map Step.id
    ∧ ((steps.map Step.id).Nodup → ((layoutNodes steps saved cw).map Node.id).Nodup) := by
  have h := layoutNodes_map_id steps saved cw
  exact ⟨h, fun hnd => h ▸ hnd⟩

/-- Witness for C6: at a concrete two-step list with unique ids the derived
node ids are exactly the step ids and are duplicate-free. -/
theorem c6_node_ids_witness :
    (layoutNodes [{ id := "a", name := "Fetch", dependencies := [] },
                  { id := "b", name := "Store", dependencies := ["a"] }]
        (fun _ => none) none).map Node.id = ["a", "b"]
    ∧ ((layoutNodes [{ id := "a", name := "Fetch", dependencies := [] },
                     { id := "b", name := "Store", dependencies := ["a"] }]
        (fun _ => none) none).map Node.id).Nodup :=
  ⟨(c6_node_ids _ _ _).1.trans (by decide),
   (c6_node_ids _ _ _).2 (by decide)⟩

/-- Counterexample for C2: at source `(0,0)`, target `(3,4)` (so
`dr = 5`), the code's first control point is `(5/2, 0)` — shifted in `x`,
with the endpoint's `y` kept — so it is NOT offset from the endpoint along
the vertical coordinate only, and differs from the spec-described
vertically-offset path. -/
theorem c2_vertical_offset_counterexample :
    (0 : ℚ) ≤ 5 ∧ (5 : ℚ) ^ 2 = dist2 ⟨0, 0⟩ ⟨3, 4⟩
    ∧ (initialPath ⟨0, 0⟩ ⟨3, 4⟩ 5).c1.x ≠ (Point.mk 0 0).x
    ∧ (initialPath ⟨0, 0⟩ ⟨3, 4⟩ 5).c1.y = (Point.mk 0 0).y
    ∧ initialPath ⟨0, 0⟩ ⟨3, 4⟩ 5 ≠ specVerticalPath ⟨0, 0⟩ ⟨3, 4⟩ 5 := by
  refine ⟨by norm_num, by norm_num [dist2], by norm_num [initialPath], rfl, fun h => ?_⟩
  have hx := congrArg (fun q => q.c1.x) h
  norm_num [initialPath, specVerticalPath] at hx

/-- C2 (amended).  The rendered edge path is a cubic curve from source
center to destination center whose control points are offset from each
endpoint by half the source–destination Euclidean distance along the
HORIZONTAL coordinate only (source `+dr/2`, destination `-dr/2`, each
keeping its endpoint's vertical coordinate); exactly the same rule is used
for the initial draw and for every drag-time recomputation. -/
theorem c2_path_control_points (s t : Point) (dr : ℚ) (h0 : 0 ≤ dr)
    (hdr : dr ^ 2 = dist2 s t) :
    initialPath s t dr = dragPath s t dr
    ∧ (initialPath s t dr).p0 = s ∧ (initialPath s t dr).p1 = t
    ∧ (initialPath s t dr).c1 = ⟨s.x + dr / 2, s.y⟩
    ∧ (initialPath s t dr).c2 = ⟨t.x - dr / 2, t.y⟩ :=
  ⟨rfl, rfl, rfl, rfl, rfl⟩

/-- Witness for C2 (amended): the 3-4-5 triangle instance. -/
theorem c2_path_control_points_witness :
    (0 : ℚ) ≤ 5 ∧ (5 : ℚ) ^ 2 = dist2 ⟨0, 0⟩ ⟨3, 4⟩
    ∧ (initialPath ⟨0, 0⟩ ⟨3, 4⟩ 5).c1 = ⟨0 + 5 / 2, 0⟩ :=
  ⟨by norm_num, by norm_num [dist2],
   (c2_path_control_points ⟨0, 0⟩ ⟨3, 4⟩ 5 (by norm_num)
      (by norm_num [dist2])).2.2.2.1⟩

/-- C9.  The zoom scale is clamped to the configured `scaleExtent`
`[0.7, 1.6]`: the lower bound is strictly below `1`, the upper strictly
above `1`, every requested scale lands inside the interval, and the
gestures requesting `0.2` and `5.0` are clamped to the bounds. -/
theorem c9_zoom_scale_clamped :
    scaleExtentLo < 1 ∧ 1 < scaleExtentHi
    ∧ (∀ k : ℚ, scaleExtentLo ≤ clampScale k ∧ clampScale k ≤ scaleExtentHi)
    ∧ clampScale 0.2 = scaleExtentLo ∧ clampScale 5 = scaleExtentHi := by
  refine ⟨by norm_num [scaleExtentLo], by norm_num [scaleExtentHi],
    fun k => ⟨le_max_left _ _, ?_⟩, ?_, ?_⟩
  · exact max_le (by norm_num [scaleExtentLo, scaleExtentHi]) (min_le_left _ _)
  · rw [clampScale, min_eq_right (by norm_num [scaleExtentHi] : (0.2 : ℚ) ≤ scaleExtentHi)]
    exact max_eq_left (by norm_num [scaleExtentLo])
  · rw [clampScale, min_eq_left (by norm_num [scaleExtentHi] : scaleExtentHi ≤ (5 : ℚ))]
    exact max_eq_right (by norm_num [scaleExtentLo, scaleExtentHi])

lemma findNode_dragMove (ns : List Node) (i j : String) (p : Point) :
    findNode (dragMove ns i p) j =
      (findNode ns j).map
        (fun n => if n.id = i then { n with x := p.x, y := p.y } else n) := by
  rw [findNode, dragMove, List.find?_map, findNode]
  congr 1
  congr 1
  funext n
  by_cases h : n.id = i <;> simp [h]

/-- C7.  One drag frame of node `i` to pointer position `p`: the dragged
node's position becomes `p`; the live position cache entry for `i` becomes
exactly `p` (and no other entry changes); every edge incident to `i` gets
its path recomputed with `p` as the corresponding endpoint; and an edge
not incident to `i` recomputes to an unchanged path. -/
theorem c7_drag_updates_positions (ns : List Node) (cache : Snapshot)
    (i : String) (p : Point) (l : LinkRef) (dr : ℚ)
    (hsrc : (findNode ns l.src).isSome = true)
    (htgt : (findNode ns l.tgt).isSome = true) :
    (∀ n ∈ dragMove ns i p, n.id = i → n.x = p.x ∧ n.y = p.y)
    ∧ cacheWrite cache i p i = some p
    ∧ (∀ j, j ≠ i → cacheWrite cache i p j = cache j)
    ∧ (∃ pd : LinkPath, pathAt (dragMove ns i p) l dr = some pd
        ∧ (l.src = i → pd.p0 = p) ∧ (l.tgt = i → pd.p1 = p))
    ∧ (l.src ≠ i → l.tgt ≠ i → pathAt (dragMove ns i p) l dr = pathAt ns l dr) := by
  obtain ⟨s, hs⟩ := Option.isSome_iff_exists.mp hsrc
  obtain ⟨t, ht⟩ := Option.isSome_iff_exists.mp htgt
  have hsid : s.id = l.src := by simpa using List.find?_some hs
  have htid : t.id = l.tgt := by simpa using List.find?_some ht
  refine ⟨?_, ?_, ?_, ?_, ?_⟩
  · intro n hn hni
    simp only [dragMove, List.mem_map] at hn
    obtain ⟨m, _, rfl⟩ := hn
    by_cases h : m.id = i
    · simp [h]
    · rw [if_neg h] at hni ⊢
      exact absurd hni h
  · simp [cacheWrite]
  · intro j hj
    simp [cacheWrite, hj]
  · rw [pathAt, findNode_dragMove, findNode_dragMove, hs, ht, Option.map_some',
      Option.map_some']
    refine ⟨_, rfl, fun hsrci => ?_, fun htgti => ?_⟩
    · have hsi : s.id = i := hsid.trans hsrci
      simp [dragPath, hsi]
    · have hti : t.id = i := htid.trans htgti
      simp [dragPath, hti]
  · intro h1 h2
    have g1 : s.id ≠ i := hsid ▸ h1
    have g2 : t.id ≠ i := htid ▸ h2
    rw [pathAt, pathAt, findNode_dragMove, findNode_dragMove, hs, ht,
      Option.map_some', Option.map_some', if_neg g1, if_neg g2]

/-- Witness for C7: dragging node `"A"` to `(50,60)` updates the cache to
`A ↦ (50,60)` and recomputes the `A → B` edge with `(50,60)` as its source
endpoint. -/
theorem c7_drag_updates_positions_witness :
    cacheWrite emptySnap "A" ⟨50, 60⟩ "A" = some ⟨50, 60⟩
    ∧ (∃ pd : LinkPath,
        pathAt (dragMove [demoNodeA, demoNodeB] "A" ⟨50, 60⟩) ⟨"A", "B"⟩ 1 = some pd
        ∧ pd.p0 = ⟨50, 60⟩) := by
  refine ⟨(c7_drag_updates_positions [demoNodeA, demoNodeB] emptySnap "A" ⟨50, 60⟩
    ⟨"A", "B"⟩ 1 (by decide) (by decide)).2.1, ?_⟩
  obtain ⟨pd, hpd, h1, -⟩ := (c7_drag_updates_positions [demoNodeA, demoNodeB]
    emptySnap "A" ⟨50, 60⟩ ⟨"A", "B"⟩ 1 (by decide) (by decide)).2.2.2.1
  exact ⟨pd, hpd, h1 rfl⟩
